import Mathlib

/-!
Verification development for the satellite-visualisation repository.

The server code lives in src/app/api/satellites/route.ts (namespace `Route`
below) and the client transition engine in
src/app/components/satellite-globe.tsx (namespace `Globe` below).

Modelling conventions:
* A JavaScript `number` is modelled by `JsNum`: either a finite rational
  (`JsNum.fin q`) or `JsNum.nonfinite` (abstracting NaN and ±Infinity; every
  claim under study only exercises finite values).  Float rounding and
  overflow are outside the model: arithmetic on finite values is exact
  rational arithmetic.
* An arbitrary JSON/JS value (the fields of a raw upstream record) is
  modelled by `JSVal`.
* `String.prototype.trim` is modelled by `jsTrim` (hand-rolled so that its
  idempotence is provable); `String.prototype.toUpperCase` and
  `toLowerCase` by the character maps `jsToUpper`/`jsToLower`;
  `String.prototype.includes` by `strIncludes`.
* The `Number(string)` coercion is modelled by `jsNumberOfString`, covering
  decimal literals (sign, integer/fraction parts, exponent) and `Infinity`;
  every other string yields `JsNum.nonfinite` (NaN).
* The satellite.js collaborators (`json2satrec`, `propagate`, `gstime`,
  `eciToGeodetic`, `radiansToDegrees`'s π factor, `Math.sqrt`) are opaque
  per the spec; they are section parameters, and `json2satrec`'s outcome is
  carried on the raw record (`satrecResult`, `none` = it throws).
-/

/-- A JavaScript number: a finite rational or a non-finite value
(NaN / ±Infinity, which the finiteness checks in the code treat alike). -/
inductive JsNum where
  | fin (q : ℚ)
  | nonfinite
deriving DecidableEq, Repr

/-- `Number.isFinite`. -/
def JsNum.isFinite : JsNum → Bool
  | .fin _ => true
  | .nonfinite => false

/-- JS multiplication restricted to the model: any non-finite operand makes
the result non-finite. -/
def JsNum.mul : JsNum → JsNum → JsNum
  | .fin a, .fin b => .fin (a * b)
  | _, _ => .nonfinite

/-- JS addition restricted to the model: any non-finite operand makes the
result non-finite. -/
def JsNum.add : JsNum → JsNum → JsNum
  | .fin a, .fin b => .fin (a + b)
  | _, _ => .nonfinite

/-- A JS `Map`, modelled as an insertion-ordered association list; `jsMapSet`
keeps keys unique and `jsMapGet` models `Map.prototype.get`. -/
def jsMapGet {κ ν : Type} [DecidableEq κ] (m : List (κ × ν)) (k : κ) : Option ν :=
  (m.find? fun p => p.1 = k).map Prod.snd

/-- `Map.prototype.set`: overwrite an existing key in place, else append. -/
def jsMapSet {κ ν : Type} [DecidableEq κ] (m : List (κ × ν)) (k : κ) (v : ν) :
    List (κ × ν) :=
  if m.any fun p => p.1 = k then
    m.map fun p => if p.1 = k then (k, v) else p
  else m ++ [(k, v)]

/-- An arbitrary JavaScript value as found in a raw upstream JSON record. -/
inductive JSVal where
  | num (x : JsNum)
  | str (s : String)
  | absent
  | other
deriving DecidableEq, Repr

/-- JS whitespace test (ASCII whitespace suffices for the model). -/
def jsWhitespace (c : Char) : Bool :=
  c = ' ' || c = '\t' || c = '\n' || c = '\r'

/-- Drop trailing characters satisfying `p` (via reverse). -/
def dropTrailing (p : Char → Bool) (l : List Char) : List Char :=
  (l.reverse.dropWhile p).reverse

/-- Model of `String.prototype.trim`: drop leading and trailing whitespace. -/
def jsTrim (s : String) : String :=
  ⟨dropTrailing jsWhitespace (s.data.dropWhile jsWhitespace)⟩

/-- Model of `String.prototype.toUpperCase` (ASCII): upper-case every
character. -/
def jsToUpper (s : String) : String :=
  ⟨s.data.map Char.toUpper⟩

/-- Model of `String.prototype.toLowerCase` (ASCII): lower-case every
character. -/
def jsToLower (s : String) : String :=
  ⟨s.data.map Char.toLower⟩

/-- Does `l` start with `needle`? -/
def startsWithList : List Char → List Char → Bool
  | _, [] => true
  | [], _ :: _ => false
  | a :: as, b :: bs => a = b && startsWithList as bs

/-- Does `l` contain `needle` as a contiguous sublist? -/
def containsList : List Char → List Char → Bool
  | [], needle => needle.isEmpty
  | h :: t, needle => startsWithList (h :: t) needle || containsList t needle

/-- Model of `String.prototype.includes`. -/
def strIncludes (s sub : String) : Bool :=
  containsList s.data sub.data

/-- Value of a digit list read left to right as a natural number. -/
def digitsVal (ds : List Char) : ℕ :=
  ds.foldl (fun acc c => 10 * acc + (c.toNat - '0'.toNat)) 0

/-- Split a character list into its leading digit run and the rest. -/
def splitDigits (l : List Char) : List Char × List Char :=
  (l.takeWhile Char.isDigit, l.dropWhile Char.isDigit)

/-- Parse the exponent part (after `e`/`E`): optional sign then digits. -/
def parseExponent (l : List Char) : Option ℤ :=
  match l with
  | '+' :: rest =>
    let (ds, rest2) := splitDigits rest
    if ds.isEmpty || !rest2.isEmpty then none else some (digitsVal ds : ℤ)
  | '-' :: rest =>
    let (ds, rest2) := splitDigits rest
    if ds.isEmpty || !rest2.isEmpty then none else some (-(digitsVal ds : ℤ))
  | _ =>
    let (ds, rest2) := splitDigits l
    if ds.isEmpty || !rest2.isEmpty then none else some (digitsVal ds : ℤ)

/-- Parse an unsigned decimal literal `digits[.digits][e|E exp]`; at least one
mantissa digit is required. -/
def parseUnsignedDecimal (l : List Char) : Option ℚ :=
  let (intDs, rest) := splitDigits l
  let (fracDs, rest2) :=
    match rest with
    | '.' :: r => splitDigits r
    | _ => ([], rest)
  let sawDot := match rest with | '.' :: _ => true | _ => false
  if intDs.isEmpty && fracDs.isEmpty then none
  else
    let mantissa : ℚ :=
      (digitsVal intDs : ℚ) + (digitsVal fracDs : ℚ) / ((10 : ℚ) ^ fracDs.length)
    let afterMantissa := if sawDot then rest2 else rest
    match afterMantissa with
    | [] => some mantissa
    | 'e' :: r =>
      (parseExponent r).map fun e => mantissa * (10 : ℚ) ^ e
    | 'E' :: r =>
      (parseExponent r).map fun e => mantissa * (10 : ℚ) ^ e
    | _ => none

/-- Model of JS `Number(string)`: trim; empty ⇒ 0; optional sign; `Infinity`
⇒ non-finite; decimal literal ⇒ its value; anything else ⇒ NaN (non-finite).
Float overflow/rounding is outside the model. -/
def jsNumberOfString (s : String) : JsNum :=
  let t := (jsTrim s).data
  match t with
  | [] => .fin 0
  | '+' :: rest =>
    if rest = "Infinity".data then .nonfinite
    else match parseUnsignedDecimal rest with
      | some q => .fin q
      | none => .nonfinite
  | '-' :: rest =>
    if rest = "Infinity".data then .nonfinite
    else match parseUnsignedDecimal rest with
      | some q => .fin (-q)
      | none => .nonfinite
  | _ =>
    if t = "Infinity".data then .nonfinite
    else match parseUnsignedDecimal t with
      | some q => .fin q
      | none => .nonfinite

namespace Route

/-- `toFiniteNumber` (route.ts, lines 68–81): a finite number or a string
coercing to a finite number yields that number; everything else `null`. -/
def toFiniteNumber : JSVal → Option ℚ
  | .num (.fin q) => some q
  | .num .nonfinite => none
  | .str s =>
    match jsNumberOfString s with
    | .fin q => some q
    | .nonfinite => none
  | _ => none

/-- `toCleanString` (route.ts, lines 83–90): non-strings yield `null`; strings
are trimmed, an empty trim yields `null`. -/
def toCleanString : JSVal → Option String
  | .str value =>
    let trimmed := jsTrim value
    if trimmed.length > 0 then some trimmed else none
  | _ => none

/-- `buildGroupFeedUrl` (route.ts, lines 92–94). -/
def buildGroupFeedUrl (group : String) : String :=
  "https://celestrak.org/NORAD/elements/gp.php?GROUP=" ++ group ++ "&FORMAT=json"

/-- Core of `normalizeLongitude` on a finite value. -/
def normalizeLongitudeQ (lon : ℚ) : ℚ :=
  if lon > 180 then lon - 360
  else if lon < -180 then lon + 360
  else lon

/-- `normalizeLongitude` (route.ts, lines 96–110): non-finite values are
returned unchanged; finite values above 180 lose 360, below −180 gain 360. -/
def normalizeLongitude (lon : JsNum) : JsNum :=
  match lon with
  | .nonfinite => lon
  | .fin q => .fin (normalizeLongitudeQ q)

/-- `normalizeObjectType` (route.ts, lines 112–132): falsy (`null` or empty)
⇒ `null`; otherwise trim+uppercase and map through the synonym table, passing
unknown values through upper-cased. -/
def normalizeObjectType (value : Option String) : Option String :=
  match value with
  | none => none
  | some v =>
    if v = "" then none
    else
      let upperValue := jsToUpper (jsTrim v)
      if upperValue = "PAY" || upperValue = "PAYLOAD" then some "PAYLOAD"
      else if upperValue = "DEB" || upperValue = "DEBRIS" then some "DEBRIS"
      else if upperValue = "R/B" || upperValue = "ROCKET BODY" || upperValue = "RB" then
        some "ROCKET BODY"
      else some upperValue

/-- `inferObjectTypeFromName` (route.ts, lines 134–146). -/
def inferObjectTypeFromName (objectName : String) : String :=
  let upperName := jsToUpper objectName
  if strIncludes upperName " DEB" || strIncludes upperName "DEBRIS" then "DEBRIS"
  else if strIncludes upperName " R/B" || strIncludes upperName "ROCKET BODY" then
    "ROCKET BODY"
  else "PAYLOAD"

/-- The opaque propagation-ready representation (`SatRec` of satellite.js);
its contents are never inspected by the code under study. -/
abbrev SatRec : Type := ℕ

/-- A raw upstream record (`OMMJsonObject`): the fields the route reads, plus
the outcome of the opaque `json2satrec` collaborator on this record
(`none` models `json2satrec` throwing). -/
structure RawRecord where
  NORAD_CAT_ID : JSVal
  OBJECT_NAME : JSVal
  OBJECT_TYPE : JSVal
  COUNTRY_CODE : JSVal
  INCLINATION : JSVal
  LAUNCH_DATE : JSVal
  satrecResult : Option SatRec
deriving DecidableEq, Repr

/-- `CachedOrbitRecord` (route.ts, lines 19–27). -/
structure CachedOrbitRecord where
  countryCode : Option String
  inclination : Option ℚ
  launchDate : Option String
  noradId : ℚ
  objectName : String
  objectType : Option String
  satrec : SatRec
deriving DecidableEq, Repr

/-- `CachedOrbitSet` (route.ts, lines 29–33). -/
structure CachedOrbitSet where
  fetchedAt : String
  records : List CachedOrbitRecord
  source : String
deriving DecidableEq, Repr

/-- One iteration of the `loadOrbitSet` normalization loop (route.ts, lines
181–205): `null` identifier ⇒ `continue`; a `json2satrec` throw ⇒ the `catch`
branch `continue`; otherwise the record is assembled and pushed. -/
def normalizeRecord (entry : RawRecord) : Option CachedOrbitRecord :=
  match toFiniteNumber entry.NORAD_CAT_ID with
  | none => none
  | some noradId =>
    match entry.satrecResult with
    | none => none
    | some satrec =>
      let objectName := (toCleanString entry.OBJECT_NAME).getD ("NORAD-" ++ toString noradId)
      let objectType :=
        (normalizeObjectType (toCleanString entry.OBJECT_TYPE)).getD
          (inferObjectTypeFromName objectName)
      some
        { countryCode := toCleanString entry.COUNTRY_CODE
          inclination := toFiniteNumber entry.INCLINATION
          launchDate := toCleanString entry.LAUNCH_DATE
          noradId := noradId
          objectName := objectName
          objectType := some objectType
          satrec := satrec }

/-- A 3-vector of JS numbers (ECI position or velocity). -/
structure Vec3 where
  x : JsNum
  y : JsNum
  z : JsNum
deriving DecidableEq, Repr

/-- Output of `eciToGeodetic`: radians / kilometers, possibly non-finite. -/
structure Geodetic where
  latitude : JsNum
  longitude : JsNum
  height : JsNum
deriving DecidableEq, Repr

/-- `SatellitePosition` (route.ts, lines 35–46).  Latitude and longitude are
stored only after passing the finiteness check, so they are plain rationals;
altitude and speed are stored unchecked. -/
structure SatellitePosition where
  altitudeKm : JsNum
  countryCode : Option String
  inclination : Option ℚ
  launchDate : Option String
  lat : ℚ
  lon : ℚ
  noradId : ℚ
  objectName : String
  objectType : Option String
  speedKps : JsNum
deriving DecidableEq, Repr

/-- Rounding to the nearest integer, ties toward +∞, as ECMAScript `toFixed`
rounds its scaled mantissa ("if there are two such n, pick the larger n"). -/
def jsRound (x : ℚ) : ℤ :=
  ⌊x + 1 / 2⌋

/-- `Number(x.toFixed(n))` on a finite rational: round to `n` decimal places
(float artifacts are outside the model). -/
def toFixedQ (n : ℕ) (x : ℚ) : ℚ :=
  (jsRound (x * (10 : ℚ) ^ n) : ℚ) / (10 : ℚ) ^ n

/-- `Number(x.toFixed(n))` on a JS number (`NaN.toFixed` gives `"NaN"`, which
`Number` turns back into NaN). -/
def jsToFixed (n : ℕ) : JsNum → JsNum
  | .fin q => .fin (toFixedQ n q)
  | .nonfinite => .nonfinite

section Collaborators

/- The satellite.js collaborators, opaque per the spec: `gstime` maps a date
to a sidereal angle, `propagate` returns position/velocity or a failure
signal (`none` covers a falsy state and missing position/velocity),
`eciToGeodetic` converts ECI to geodetic radians/kilometers, `rtdFactor`
abstracts the 180/π factor of `radiansToDegrees`, `jsSqrt` abstracts
`Math.sqrt`. -/
variable (gstime : ℤ → ℚ)
variable (propagate : SatRec → ℤ → Option (Vec3 × Vec3))
variable (eciToGeodetic : Vec3 → ℚ → Geodetic)
variable (rtdFactor : ℚ → ℚ)
variable (jsSqrt : JsNum → JsNum)

/-- `radiansToDegrees` lifted to JS numbers: finite values are scaled by the
(irrational, hence abstracted) factor 180/π; non-finite stays non-finite. -/
def radiansToDegrees (v : JsNum) : JsNum :=
  match v with
  | .fin q => .fin (rtdFactor q)
  | .nonfinite => .nonfinite

/-- The body of the `computePositions` loop (route.ts, lines 232–264) for one
record: propagation failure or non-finite latitude/longitude ⇒ skip. -/
def computeOne (gmst : ℚ) (nowDate : ℤ) (record : CachedOrbitRecord) :
    Option SatellitePosition :=
  match propagate record.satrec nowDate with
  | none => none
  | some (pos, vel) =>
    let geodetic := eciToGeodetic pos gmst
    let lat := radiansToDegrees rtdFactor geodetic.latitude
    let lon := normalizeLongitude (radiansToDegrees rtdFactor geodetic.longitude)
    match lat, lon with
    | .fin latQ, .fin lonQ =>
      let speedKps :=
        jsSqrt (((vel.x.mul vel.x).add (vel.y.mul vel.y)).add (vel.z.mul vel.z))
      some
        { altitudeKm := jsToFixed 2 geodetic.height
          countryCode := record.countryCode
          inclination := record.inclination
          launchDate := record.launchDate
          lat := toFixedQ 5 latQ
          lon := toFixedQ 5 lonQ
          noradId := record.noradId
          objectName := record.objectName
          objectType := record.objectType
          speedKps := jsToFixed 3 speedKps }
    | _, _ => none

/-- `Math.min(records.length, limit)` clamped to the loop's iteration count
(a non-positive limit runs the loop zero times). -/
def requestedCount (records : List CachedOrbitRecord) (limit : Option ℤ) : ℕ :=
  match limit with
  | none => records.length
  | some l => min records.length l.toNat

/-- `computePositions` (route.ts, lines 221–268): iterate `index` over
`[0, requestedCount)`, skipping records whose propagation fails or whose
latitude/longitude is non-finite. -/
def computePositions (records : List CachedOrbitRecord) (nowDate : ℤ)
    (limit : Option ℤ) : List SatellitePosition :=
  let gmst := gstime nowDate
  (List.range (requestedCount records limit)).filterMap fun index =>
    (records[index]?).bind (computeOne propagate eciToGeodetic rtdFactor jsSqrt gmst nowDate)

end Collaborators

/-- `parseLimit` (route.ts, lines 270–281): an absent or empty (falsy)
parameter, a non-finite coercion, or a non-positive value yields `null`;
otherwise `Math.floor` of the value. -/
def parseLimit (limitParam : Option String) : Option ℤ :=
  match limitParam with
  | none => none
  | some s =>
    if s = "" then none
    else
      match jsNumberOfString s with
      | .nonfinite => none
      | .fin parsed => if parsed ≤ 0 then none else some ⌊parsed⌋

/-- One entry of a module-level cache `Map`: absolute expiry plus value
(route.ts, lines 48–63). -/
structure CacheEntry (α : Type) where
  expiresAt : ℤ
  value : α
deriving DecidableEq, Repr

/-- A module-level cache `Map` with string keys. -/
abbrev CacheMap (α : Type) : Type := List (String × CacheEntry α)

/-- The guard pattern `cached && cached.expiresAt > now` used by both caches. -/
def cacheLookup {α : Type} (m : CacheMap α) (k : String) (now : ℤ) : Option α :=
  match jsMapGet m k with
  | some entry => if entry.expiresAt > now then some entry.value else none
  | none => none

def DEFAULT_GROUP : String := "active"
def ORBIT_CACHE_TTL_MS : ℤ := 30 * 60 * 1000
def POSITION_CACHE_TTL_MS : ℤ := 5000

def ALLOWED_GROUPS : List String := ["active", "stations", "starlink"]

/-- Outcome of the upstream fetch (`fetchWithTimeout` plus `response.ok` /
`response.json()`): a timeout abort, a non-success HTTP status, or a parsed
JSON payload. -/
inductive FetchOutcome where
  | timeout
  | httpError (status : ℕ)
  | ok (payload : List RawRecord)
deriving DecidableEq, Repr

/-- The message of the error thrown on the fetch path: an aborted `fetch`
rejects with an `AbortError` (its message is runtime-dependent; the code only
forwards it), and a non-success status throws the explicit `Error` of
route.ts line 175. -/
def fetchFailureMessage : FetchOutcome → Option String
  | .timeout => some "This operation was aborted"
  | .httpError status =>
    some ("CelesTrak orbit request failed (" ++ toString status ++ ")")
  | .ok _ => none

/-- `loadOrbitSet` (route.ts, lines 163–219), with the ambient clock
(`Date.now()`, line 164) and ISO timestamp (`new Date().toISOString()`,
line 208) passed explicitly and the fetch outcome as a parameter.  Returns
the snapshot plus the updated orbit cache, or the thrown error message. -/
def loadOrbitSet (orbitCache : CacheMap CachedOrbitSet) (group : String)
    (now : ℤ) (fetchResult : FetchOutcome) (fetchedAt : String) :
    Except String (CachedOrbitSet × CacheMap CachedOrbitSet) :=
  match cacheLookup orbitCache group now with
  | some cachedValue => .ok (cachedValue, orbitCache)
  | none =>
    match fetchResult with
    | .timeout => .error "This operation was aborted"
    | .httpError status =>
      .error ("CelesTrak orbit request failed (" ++ toString status ++ ")")
    | .ok payload =>
      let records := payload.filterMap normalizeRecord
      let value : CachedOrbitSet :=
        { fetchedAt := fetchedAt
          records := records
          source := buildGroupFeedUrl group }
      .ok (value, jsMapSet orbitCache group ⟨now + ORBIT_CACHE_TTL_MS, value⟩)

/-- The successful response body (route.ts, lines 308–316). -/
structure SnapshotValue where
  computedAt : String
  count : ℕ
  fetchedAt : String
  group : String
  satellites : List SatellitePosition
  source : String
  totalOrbits : ℕ
deriving DecidableEq, Repr

/-- What the route returns: a JSON snapshot (status 200) or the error
envelope of route.ts lines 334–337 with its HTTP status. -/
inductive ApiResponse where
  | ok (value : SnapshotValue)
  | err (message : String) (status : ℕ)
deriving DecidableEq, Repr

/-- The module-level mutable state: the two cache maps. -/
structure ServerState where
  orbitCache : CacheMap CachedOrbitSet
  positionCache : CacheMap SnapshotValue

/-- The position-cache composite key `group:limit-or-all` (route.ts,
line 292). -/
def positionCacheKey (group : String) (limit : Option ℤ) : String :=
  group ++ ":" ++ (match limit with | none => "all" | some l => toString l)

/-- Group validation of the handler (route.ts, lines 286–289): lower-case the
requested group (default `active`) and fall back to the default unless it is
on the allow-list. -/
def resolveGroup (groupParam : Option String) : String :=
  let requestedGroup := jsToLower (groupParam.getD DEFAULT_GROUP)
  if requestedGroup ∈ ALLOWED_GROUPS then requestedGroup else DEFAULT_GROUP

/-- The response body assembled on the compute path (route.ts, lines
308–316). -/
def mkSnapshotValue (computedAt : String) (group : String) (orbitSet : CachedOrbitSet)
    (satellites : List SatellitePosition) : SnapshotValue :=
  { computedAt := computedAt
    count := satellites.length
    fetchedAt := orbitSet.fetchedAt
    group := group
    satellites := satellites
    source := orbitSet.source
    totalOrbits := orbitSet.records.length }

section Handler

variable (gstime : ℤ → ℚ)
variable (propagate : SatRec → ℤ → Option (Vec3 × Vec3))
variable (eciToGeodetic : Vec3 → ℚ → Geodetic)
variable (rtdFactor : ℚ → ℚ)
variable (jsSqrt : JsNum → JsNum)

/-- `GET` (route.ts, lines 283–339).  Ambient effects are passed explicitly:
`now` is `Date.now()` of line 293, `orbitNow` the `Date.now()` inside
`loadOrbitSet`, `computedAt`/`computedTime` the ISO string and time value of
`new Date()` at lines 305–306, `fetchedAt` the ISO timestamp used by a fresh
fetch, and `fetchResult` the outcome of the upstream fetch (unused on cache
hits).  Returns the updated state and the response. -/
def handleGET (st : ServerState) (groupParam limitParam : Option String)
    (now orbitNow computedTime : ℤ) (fetchResult : FetchOutcome)
    (fetchedAt computedAt : String) : ServerState × ApiResponse :=
  let group := resolveGroup groupParam
  let limit := parseLimit limitParam
  let key := positionCacheKey group limit
  match cacheLookup st.positionCache key now with
  | some cachedValue => (st, .ok cachedValue)
  | none =>
    match loadOrbitSet st.orbitCache group orbitNow fetchResult fetchedAt with
    | .error message =>
      (st, .err ("Unable to fetch live satellite positions: " ++ message) 502)
    | .ok (orbitSet, orbitCache2) =>
      let satellites :=
        computePositions gstime propagate eciToGeodetic rtdFactor jsSqrt
          orbitSet.records computedTime limit
      let value := mkSnapshotValue computedAt group orbitSet satellites
      (⟨orbitCache2, jsMapSet st.positionCache key ⟨now + POSITION_CACHE_TTL_MS, value⟩⟩,
        .ok value)

end Handler

end Route

/-! The client transition engine, src/app/components/satellite-globe.tsx.
The client consumes JSON, which cannot carry non-finite numbers, so the
client-side numeric fields are modelled as plain rationals. -/

namespace Globe

/-- `Satellite` (satellite-globe.tsx, lines 16–27): the API response shape as
seen by the client. -/
structure Satellite where
  altitudeKm : ℚ
  countryCode : Option String
  inclination : Option ℚ
  launchDate : Option String
  lat : ℚ
  lon : ℚ
  noradId : ℚ
  objectName : String
  objectType : Option String
  speedKps : ℚ
deriving DecidableEq, Repr

/-- `SatelliteBucket` (satellite-globe.tsx, line 38). -/
inductive SatelliteBucket where
  | payload
  | debris
  | rocket
  | other
deriving DecidableEq, Repr

def EARTH_RADIUS_KM : ℚ := 6371
def MOTION_DURATION_MS : ℚ := 8500
def PAYLOAD_COLOR : String := "#fde047"
def DEBRIS_COLOR : String := "#fb7185"
def ROCKET_COLOR : String := "#a78bfa"
def OTHER_COLOR : String := "#cbd5e1"

/-- The client's `normalizeLongitude` (satellite-globe.tsx, lines 68–78):
same arithmetic as the server's, without the finiteness guard. -/
def normalizeLongitude (lon : ℚ) : ℚ :=
  if lon > 180 then lon - 360
  else if lon < -180 then lon + 360
  else lon

/-- `easeInOutCubic` (satellite-globe.tsx, lines 80–86). -/
def easeInOutCubic (value : ℚ) : ℚ :=
  if value < 1 / 2 then 4 * value * value * value
  else 1 - (-2 * value + 2) ^ 3 / 2

/-- JS truncating integer part (`Math.trunc`; rounds toward zero). -/
def jsTrunc (q : ℚ) : ℤ :=
  if 0 ≤ q then ⌊q⌋ else -⌊-q⌋

/-- The JS `%` remainder: `a - b * trunc(a / b)`, taking the sign of the
dividend. -/
def jsRem (a b : ℚ) : ℚ :=
  a - b * jsTrunc (a / b)

/-- `longitudeDelta` (satellite-globe.tsx, lines 88–90): signed shortest-arc
delta `((to - from + 540) % 360) - 180`. -/
def longitudeDelta (lonFrom lonTo : ℚ) : ℚ :=
  jsRem (lonTo - lonFrom + 540) 360 - 180

/-- `getSatelliteBucket` (satellite-globe.tsx, lines 92–117). -/
def getSatelliteBucket (objectType : Option String) : SatelliteBucket :=
  match objectType with
  | none => .other
  | some t =>
    if t = "" then .other
    else
      let upperType := jsToUpper t
      if upperType = "PAYLOAD" || upperType = "PAY" then .payload
      else if strIncludes upperType "DEBRIS" || upperType = "DEB" then .debris
      else if strIncludes upperType "ROCKET" || upperType = "R/B" ||
          upperType = "RB" || strIncludes upperType "R/B" then .rocket
      else .other

/-- `bucketColor` (satellite-globe.tsx, lines 119–133). -/
def bucketColor : SatelliteBucket → String
  | .payload => PAYLOAD_COLOR
  | .debris => DEBRIS_COLOR
  | .rocket => ROCKET_COLOR
  | .other => OTHER_COLOR

/-- `SatellitePoint` (satellite-globe.tsx, lines 40–45): a satellite plus
derived render fields. -/
structure SatellitePoint extends Satellite where
  bucket : SatelliteBucket
  color : String
  lng : ℚ
  pointAltitude : ℚ
deriving DecidableEq, Repr

/-- `makeSatellitePoint` (satellite-globe.tsx, lines 135–145). -/
def makeSatellitePoint (satellite : Satellite) : SatellitePoint :=
  let bucket := getSatelliteBucket satellite.objectType
  { satellite with
    bucket := bucket
    color := bucketColor bucket
    lng := normalizeLongitude satellite.lon
    pointAltitude := max (3 / 2000) (satellite.altitudeKm / EARTH_RADIUS_KM) }

/-- The rendered map `Map<number, SatellitePoint>`. -/
abbrev PointMap : Type := List (ℚ × SatellitePoint)

/-- `TransitionState` (satellite-globe.tsx, lines 47–52); the source field
`from` is a Lean keyword, hence `fromMap`/`toMap`. -/
structure TransitionState where
  durationMs : ℚ
  fromMap : PointMap
  startMs : ℚ
  toMap : PointMap
deriving DecidableEq, Repr

/-- The engine's mutable refs and rendered-list state (satellite-globe.tsx,
lines 158–163): `transitionRef`, `renderedMapRef`, `renderedSatellites`. -/
structure EngineState where
  renderedMap : PointMap
  renderedSatellites : List SatellitePoint
  transition : Option TransitionState
deriving DecidableEq, Repr

/-- `startTransition` (satellite-globe.tsx, lines 255–287): build the target
map from the incoming snapshot; with nothing rendered yet, populate
immediately; otherwise start a transition whose from-map pairs every incoming
identifier with its rendered position, falling back to its own target. -/
def startTransition (es : EngineState) (incomingSatellites : List Satellite)
    (nowMs : ℚ) : EngineState :=
  let targetMap : PointMap :=
    incomingSatellites.foldl
      (fun m satellite => jsMapSet m satellite.noradId (makeSatellitePoint satellite)) []
  if es.renderedMap.length = 0 then
    { renderedMap := targetMap
      renderedSatellites := targetMap.map Prod.snd
      transition := none }
  else
    let fromMap : PointMap :=
      targetMap.foldl
        (fun m entry =>
          jsMapSet m entry.1 ((jsMapGet es.renderedMap entry.1).getD entry.2)) []
    { es with
      transition := some
        { durationMs := MOTION_DURATION_MS
          fromMap := fromMap
          startMs := nowMs
          toMap := targetMap } }

/-- The interpolation of one target entry at eased progress `eased`
(satellite-globe.tsx, lines 222–241). -/
def interpolatePoint (fromMap : PointMap) (eased : ℚ) (entry : ℚ × SatellitePoint) :
    SatellitePoint :=
  let target := entry.2
  let fromPt := (jsMapGet fromMap entry.1).getD target
  let nextLat := fromPt.lat + (target.lat - fromPt.lat) * eased
  let nextLng :=
    normalizeLongitude (fromPt.lng + longitudeDelta fromPt.lng target.lng * eased)
  let nextAltitudeKm := fromPt.altitudeKm + (target.altitudeKm - fromPt.altitudeKm) * eased
  { target with
    altitudeKm := nextAltitudeKm
    lat := nextLat
    lng := nextLng
    pointAltitude := max (3 / 2000) (nextAltitudeKm / EARTH_RADIUS_KM) }

/-- `animateStep` (satellite-globe.tsx, lines 206–253): with no transition in
flight, a frame does nothing; otherwise interpolate every entry of the
transition's to-map at the eased clamped progress, make that the rendered
map/list, and clear the transition once progress reaches 1. -/
def animateStep (es : EngineState) (frameTimeMs : ℚ) : EngineState :=
  match es.transition with
  | none => es
  | some transition =>
    let progress := min 1 ((frameTimeMs - transition.startMs) / transition.durationMs)
    let eased := easeInOutCubic progress
    let step := fun (acc : PointMap × List SatellitePoint) (entry : ℚ × SatellitePoint) =>
      let point := interpolatePoint transition.fromMap eased entry
      (jsMapSet acc.1 entry.1 point, acc.2 ++ [point])
    let next := transition.toMap.foldl step ([], [])
    { renderedMap := next.1
      renderedSatellites := next.2
      transition := if progress < 1 then some transition else none }

end Globe

namespace Route

/-- The classification pipeline of `loadOrbitSet` (route.ts, lines 189–191):
normalize the cleaned raw tag, falling back to inference from the name. -/
def resolvedObjectType (rawTag : JSVal) (objectName : String) : String :=
  (normalizeObjectType (toCleanString rawTag)).getD (inferObjectTypeFromName objectName)

/-- A response body is internally consistent when its `count` matches its
satellite list. -/
def SnapshotWellformed (v : SnapshotValue) : Prop :=
  v.count = v.satellites.length

/-- Every entry of the position cache is internally consistent. -/
def StateWellformed (st : ServerState) : Prop :=
  ∀ k e, jsMapGet st.positionCache k = some e → SnapshotWellformed e.value

end Route

namespace Spec

/-- Split a character list into its space-separated tokens. -/
def splitTokensAux : List Char → List Char → List (List Char)
  | [], acc => [acc.reverse]
  | c :: rest, acc =>
    if c = ' ' then acc.reverse :: splitTokensAux rest []
    else splitTokensAux rest (c :: acc)

/-- Does `s` contain `tok` as a space-separated token? -/
def hasToken (s tok : String) : Bool :=
  (splitTokensAux s.data []).any fun t => t = tok.data

/-- The classification inference exactly as the claim words it: DEBRIS when
the upper-cased name contains "DEB" as a (space-separated) token or the
substring "DEBRIS"; ROCKET BODY when it contains "R/B" or "ROCKET BODY";
PAYLOAD otherwise. -/
def claimInferObjectType (name : String) : String :=
  let up := jsToUpper name
  if hasToken up "DEB" || strIncludes up "DEBRIS" then "DEBRIS"
  else if strIncludes up "R/B" || strIncludes up "ROCKET BODY" then "ROCKET BODY"
  else "PAYLOAD"

/-- The whole classification normalization as the claim words it: a non-blank
raw tag goes case-insensitively through the synonym table (unknown tags
upper-cased and passed through); an absent or blank tag is replaced by
inference from the name. -/
def claimObjectType (rawTag : JSVal) (name : String) : String :=
  match rawTag with
  | .str s =>
    let t := jsTrim s
    if t = "" then claimInferObjectType name
    else
      let u := jsToUpper t
      if u = "PAY" || u = "PAYLOAD" then "PAYLOAD"
      else if u = "DEB" || u = "DEBRIS" then "DEBRIS"
      else if u = "R/B" || u = "ROCKET BODY" || u = "RB" then "ROCKET BODY"
      else u
  | _ => claimInferObjectType name

/-- The claim's inference amended no more than the counterexample forces: the
name tests are for the space-prefixed substring " DEB" (respectively " R/B"),
not for a token. -/
def amendedInferObjectType (name : String) : String :=
  let up := jsToUpper name
  if strIncludes up " DEB" || strIncludes up "DEBRIS" then "DEBRIS"
  else if strIncludes up " R/B" || strIncludes up "ROCKET BODY" then "ROCKET BODY"
  else "PAYLOAD"

/-- The amended classification claim: as `claimObjectType`, with the amended
name inference. -/
def amendedObjectType (rawTag : JSVal) (name : String) : String :=
  match rawTag with
  | .str s =>
    let t := jsTrim s
    if t = "" then amendedInferObjectType name
    else
      let u := jsToUpper t
      if u = "PAY" || u = "PAYLOAD" then "PAYLOAD"
      else if u = "DEB" || u = "DEBRIS" then "DEBRIS"
      else if u = "R/B" || u = "ROCKET BODY" || u = "RB" then "ROCKET BODY"
      else u
  | _ => amendedInferObjectType name

end Spec

/-! Concrete sample data used by the witness theorems. -/

def demoGstime : ℤ → ℚ := fun _ => 0

def demoPropagate : SatRec → ℤ → Option (Route.Vec3 × Route.Vec3) :=
  fun _ _ => some (⟨.fin 1, .fin 2, .fin 3⟩, ⟨.fin 1, .fin 0, .fin 0⟩)

def demoGeodetic : Route.Vec3 → ℚ → Route.Geodetic :=
  fun _ _ => ⟨.fin (1 / 2), .fin 1, .fin 400⟩

def demoRtd : ℚ → ℚ := fun q => 60 * q

def demoSqrt : JsNum → JsNum := fun v => v

/-- A raw record whose identifier is the non-numeric string "NaN". -/
def demoBadRaw : Route.RawRecord :=
  { NORAD_CAT_ID := .str "NaN"
    OBJECT_NAME := .str "BROKEN"
    OBJECT_TYPE := .absent
    COUNTRY_CODE := .absent
    INCLINATION := .absent
    LAUNCH_DATE := .absent
    satrecResult := some 7 }

/-- A fully valid raw record. -/
def demoGoodRaw : Route.RawRecord :=
  { NORAD_CAT_ID := .num (.fin 25544)
    OBJECT_NAME := .str "ISS (ZARYA)"
    OBJECT_TYPE := .absent
    COUNTRY_CODE := .absent
    INCLINATION := .absent
    LAUNCH_DATE := .absent
    satrecResult := some 1 }

/-- The normalized record `demoGoodRaw` produces. -/
def demoRec : Route.CachedOrbitRecord :=
  { countryCode := none
    inclination := none
    launchDate := none
    noradId := 25544
    objectName := "ISS (ZARYA)"
    objectType := some "PAYLOAD"
    satrec := 1 }

/-- A stored response body for the cache-hit witnesses. -/
def demoSnapshot : Route.SnapshotValue :=
  { computedAt := "t1"
    count := 0
    fetchedAt := "t0"
    group := "active"
    satellites := []
    source := "src"
    totalOrbits := 0 }

/-- A server state whose position cache holds `demoSnapshot` for
`active:all` until instant 10. -/
def demoState : Route.ServerState :=
  { orbitCache := []
    positionCache := [("active:all", ⟨10, demoSnapshot⟩)] }

/-- An empty server state. -/
def emptyState : Route.ServerState :=
  { orbitCache := [], positionCache := [] }

/-- A client satellite for the transition-engine witnesses. -/
def demoSat (id : ℚ) (lon : ℚ) : Globe.Satellite :=
  { altitudeKm := 420
    countryCode := none
    inclination := none
    launchDate := none
    lat := 10
    lon := lon
    noradId := id
    objectName := "S"
    objectType := some "PAYLOAD"
    speedKps := 7 }

/-- A client engine state with one rendered satellite. -/
def demoEngine : Globe.EngineState :=
  { renderedMap := [(1, Globe.makeSatellitePoint (demoSat 1 0))]
    renderedSatellites := [Globe.makeSatellitePoint (demoSat 1 0)]
    transition := none }

/-- The position computed from `demoRec` under the demo collaborators. -/
def demoPoint : Route.SatellitePosition :=
  { altitudeKm := .fin 400
    countryCode := none
    inclination := none
    launchDate := none
    lat := 30
    lon := 60
    noradId := 25544
    objectName := "ISS (ZARYA)"
    objectType := some "PAYLOAD"
    speedKps := .fin 1 }

/-! Theorems. -/

/-- Iterating indices `0 ≤ i < n` over `l[i]?` and filtering is filtering the
length-`n` prefix. -/
theorem filterMap_range_getElem {α β : Type} (f : α → Option β) (l : List α) :
    ∀ n : ℕ, (List.range n).filterMap (fun i => (l[i]?).bind f) = (l.take n).filterMap f := by
  intro n
  induction n with
  | zero => simp
  | succ n ih =>
    rw [List.range_succ, List.filterMap_append, ih, List.take_succ, List.filterMap_append]
    congr 1
    cases h : l[n]? with
    | none => simp [h]
    | some a => simp [h, List.filterMap]

/-- Claim C1: for every raw upstream record, the normalizer checks the
identifier first — an identifier that does not coerce to a finite number
discards the record regardless of every other field — and the normalized
output of a batch is never longer than the batch. -/
theorem claim1_normalizer_identifier_gate :
    (∀ entry : Route.RawRecord,
        Route.toFiniteNumber entry.NORAD_CAT_ID = none →
        Route.normalizeRecord entry = none) ∧
    (∀ payload : List Route.RawRecord,
        (payload.filterMap Route.normalizeRecord).length ≤ payload.length) := by
  constructor
  · intro entry h
    unfold Route.normalizeRecord
    rw [h]
  · intro payload
    exact List.length_filterMap_le _ _

/-- Witness for C1 at a concrete record with identifier `"NaN"` and a
concrete two-record batch. -/
theorem claim1_witness :
    Route.normalizeRecord demoBadRaw = none ∧
    ([demoBadRaw, demoGoodRaw].filterMap Route.normalizeRecord).length ≤
      [demoBadRaw, demoGoodRaw].length :=
  ⟨claim1_normalizer_identifier_gate.1 demoBadRaw (by decide),
    claim1_normalizer_identifier_gate.2 [demoBadRaw, demoGoodRaw]⟩

/-- Claim C2: on finite longitudes in [-540, 540] the server's
`normalizeLongitude` lands in [-180, 180] by adding or subtracting 360 at
most once, and is the identity on values already in [-180, 180]. -/
theorem claim2_normalize_longitude_range_idem :
    ∀ lon : ℚ, -540 ≤ lon → lon ≤ 540 →
      (∃ r : ℚ, Route.normalizeLongitude (.fin lon) = .fin r ∧
        -180 ≤ r ∧ r ≤ 180 ∧ (r = lon ∨ r = lon - 360 ∨ r = lon + 360)) ∧
      (-180 ≤ lon → lon ≤ 180 → Route.normalizeLongitude (.fin lon) = .fin lon) := by
  intro lon h1 h2
  constructor
  · refine ⟨Route.normalizeLongitudeQ lon, rfl, ?_⟩
    unfold Route.normalizeLongitudeQ
    split_ifs with hgt hlt
    · exact ⟨by linarith, by linarith, Or.inr (Or.inl rfl)⟩
    · exact ⟨by linarith, by linarith, Or.inr (Or.inr rfl)⟩
    · exact ⟨by linarith, by linarith, Or.inl rfl⟩
  · intro g1 g2
    show JsNum.fin (Route.normalizeLongitudeQ lon) = _
    unfold Route.normalizeLongitudeQ
    split_ifs with hgt hlt
    · exact absurd hgt (not_lt.mpr g2)
    · exact absurd hlt (not_lt.mpr g1)
    · rfl

/-- Witness for C2 at longitude 200. -/
theorem claim2_witness :
    (∃ r : ℚ, Route.normalizeLongitude (.fin 200) = .fin r ∧
      -180 ≤ r ∧ r ≤ 180 ∧ (r = 200 ∨ r = 200 - 360 ∨ r = 200 + 360)) ∧
    (-180 ≤ (200 : ℚ) → (200 : ℚ) ≤ 180 → Route.normalizeLongitude (.fin 200) = .fin 200) :=
  claim2_normalize_longitude_range_idem 200 (by decide) (by decide)

/-- Claim C3: `computePositions` is exactly the filter-map of the per-record
step over the first `requestedCount` records in collection order, and every
output position arises from a record of that prefix. -/
theorem claim3_compute_positions_order :
    ∀ (gstime : ℤ → ℚ) (propagate : Route.SatRec → ℤ → Option (Route.Vec3 × Route.Vec3))
      (eciToGeodetic : Route.Vec3 → ℚ → Route.Geodetic) (rtdFactor : ℚ → ℚ)
      (jsSqrt : JsNum → JsNum) (records : List Route.CachedOrbitRecord)
      (nowDate : ℤ) (limit : Option ℤ),
      Route.computePositions gstime propagate eciToGeodetic rtdFactor jsSqrt
          records nowDate limit
        = (records.take (Route.requestedCount records limit)).filterMap
            (Route.computeOne propagate eciToGeodetic rtdFactor jsSqrt
              (gstime nowDate) nowDate) ∧
      ∀ p ∈ Route.computePositions gstime propagate eciToGeodetic rtdFactor jsSqrt
          records nowDate limit,
        ∃ r ∈ records.take (Route.requestedCount records limit),
          Route.computeOne propagate eciToGeodetic rtdFactor jsSqrt
            (gstime nowDate) nowDate r = some p := by
  intro gstime propagate eciToGeodetic rtdFactor jsSqrt records nowDate limit
  have h := filterMap_range_getElem
    (Route.computeOne propagate eciToGeodetic rtdFactor jsSqrt (gstime nowDate) nowDate)
    records (Route.requestedCount records limit)
  constructor
  · exact h
  · intro p hp
    rw [show Route.computePositions gstime propagate eciToGeodetic rtdFactor jsSqrt
        records nowDate limit = _ from h] at hp
    exact List.mem_filterMap.mp hp

/-- Witness for C3: with the demo collaborators, the single computed position
comes from the one-record prefix. -/
theorem claim3_witness :
    ∃ r ∈ [demoRec].take (Route.requestedCount [demoRec] none),
      Route.computeOne demoPropagate demoGeodetic demoRtd demoSqrt
        (demoGstime 0) 0 r = some demoPoint :=
  (claim3_compute_positions_order demoGstime demoPropagate demoGeodetic demoRtd
    demoSqrt [demoRec] 0 none).2 demoPoint (by
      have h : Route.computePositions demoGstime demoPropagate demoGeodetic demoRtd
          demoSqrt [demoRec] 0 none = [demoPoint] := by
        norm_num [Route.computePositions, Route.computeOne, Route.requestedCount,
          Route.radiansToDegrees, Route.normalizeLongitude, Route.normalizeLongitudeQ,
          Route.jsToFixed, Route.toFixedQ, Route.jsRound, JsNum.mul, JsNum.add,
          demoGstime, demoPropagate, demoGeodetic, demoRtd, demoSqrt, demoRec, demoPoint,
          List.range_succ, List.filterMap_cons, List.filterMap_nil]
      rw [h]
      exact List.mem_singleton_self demoPoint)

/-- Counterexample to claim C4 as stated: the query value `"0.5"` is numeric
and positive, yet `parseLimit` returns 0 — neither null nor a positive
integer — because `Math.floor` is applied after the positivity check. -/
theorem claim4_counterexample : Route.parseLimit (some "0.5") = some 0 := by
  have h1 : jsNumberOfString "0.5"
      = .fin ((digitsVal ['0'] : ℚ) + (digitsVal ['5'] : ℚ) / (10 : ℚ) ^ 1) := rfl
  have h2 : '5'.toNat - '0'.toNat = 5 := by decide
  have h3 : '0'.toNat < '5'.toNat := by decide
  norm_num [Route.parseLimit, h1, digitsVal, h2, h3]
  exact fun hc => absurd hc (by decide)

/-- Claim C4 amended: `parseLimit` is total and yields either null (for an
absent, empty, non-numeric, or non-positive parameter) or the floor of the
positive parsed value — a non-negative integer, which is 0 (not positive)
when the value lies in (0, 1). -/
theorem claim4_amended_parse_limit :
    Route.parseLimit none = none ∧
    ∀ s : String,
      Route.parseLimit (some s) = none ∨
      ∃ q : ℚ, jsNumberOfString s = .fin q ∧ 0 < q ∧
        Route.parseLimit (some s) = some ⌊q⌋ ∧ 0 ≤ ⌊q⌋ := by
  constructor
  · rfl
  · intro s
    by_cases hs : s = ""
    · left
      simp [Route.parseLimit, hs]
    · cases hq : jsNumberOfString s with
      | nonfinite =>
        left
        simp [Route.parseLimit, hs, hq]
      | fin q =>
        by_cases hle : q ≤ 0
        · left
          simp [Route.parseLimit, hs, hq, hle]
        · right
          refine ⟨q, rfl, lt_of_not_le hle, ?_,
            Int.floor_nonneg.mpr (le_of_lt (lt_of_not_le hle))⟩
          simp [Route.parseLimit, hs, hq, hle]

/-- `jsMapGet` on a cons. -/
theorem jsMapGet_cons {κ ν : Type} [DecidableEq κ] (a : κ × ν) (m : List (κ × ν)) (k : κ) :
    jsMapGet (a :: m) k = if a.1 = k then some a.2 else jsMapGet m k := by
  by_cases h : a.1 = k <;> simp [jsMapGet, List.find?_cons, h]

/-- Replacing key `k` in place leaves lookups of other keys unchanged. -/
theorem jsMapGet_map_replace_ne {κ ν : Type} [DecidableEq κ] (m : List (κ × ν)) (k : κ)
    (v : ν) (k' : κ) (hne : k' ≠ k) :
    jsMapGet (m.map fun p => if p.1 = k then (k, v) else p) k' = jsMapGet m k' := by
  induction m with
  | nil => rfl
  | cons a t ih =>
    rw [List.map_cons]
    by_cases ha : a.1 = k
    · rw [if_pos ha, jsMapGet_cons, jsMapGet_cons, ih]
      simp [ha, Ne.symm hne]
    · rw [if_neg ha, jsMapGet_cons, jsMapGet_cons, ih]

/-- Replacing key `k` in place makes its lookup the new value (when the key
occurs). -/
theorem jsMapGet_map_replace_self {κ ν : Type} [DecidableEq κ] (m : List (κ × ν)) (k : κ)
    (v : ν) (hany : (m.any fun p => p.1 = k) = true) :
    jsMapGet (m.map fun p => if p.1 = k then (k, v) else p) k = some v := by
  induction m with
  | nil => simp at hany
  | cons a t ih =>
    rw [List.map_cons]
    by_cases ha : a.1 = k
    · rw [if_pos ha, jsMapGet_cons]
      simp
    · rw [if_neg ha, jsMapGet_cons, if_neg ha]
      exact ih (by simpa [ha] using hany)

/-- Appending a fresh key leaves lookups of other keys unchanged. -/
theorem jsMapGet_append_ne {κ ν : Type} [DecidableEq κ] (m : List (κ × ν)) (k : κ) (v : ν)
    (k' : κ) (hne : k' ≠ k) :
    jsMapGet (m ++ [(k, v)]) k' = jsMapGet m k' := by
  induction m with
  | nil => simp [jsMapGet_cons, Ne.symm hne, jsMapGet]
  | cons a t ih => rw [List.cons_append, jsMapGet_cons, jsMapGet_cons, ih]

/-- Appending key `k` to a map without it makes its lookup the new value. -/
theorem jsMapGet_append_self {κ ν : Type} [DecidableEq κ] (m : List (κ × ν)) (k : κ) (v : ν)
    (hnone : jsMapGet m k = none) :
    jsMapGet (m ++ [(k, v)]) k = some v := by
  induction m with
  | nil => simp [jsMapGet_cons, jsMapGet]
  | cons a t ih =>
    rw [jsMapGet_cons] at hnone
    by_cases ha : a.1 = k
    · rw [if_pos ha] at hnone; cases hnone
    · rw [if_neg ha] at hnone
      rw [List.cons_append, jsMapGet_cons, if_neg ha]
      exact ih hnone

/-- A key that `any` misses looks up to `none`. -/
theorem jsMapGet_eq_none_of_any_false {κ ν : Type} [DecidableEq κ] (m : List (κ × ν))
    (k : κ) (h : (m.any fun p => p.1 = k) = false) : jsMapGet m k = none := by
  induction m with
  | nil => rfl
  | cons a t ih =>
    rw [List.any_cons] at h
    rw [jsMapGet_cons]
    rcases Bool.or_eq_false_iff.mp h with ⟨h1, h2⟩
    rw [if_neg (by simpa using h1)]
    exact ih h2

/-- `Map.prototype.get` after `Map.prototype.set`. -/
theorem jsMapGet_jsMapSet {κ ν : Type} [DecidableEq κ] (m : List (κ × ν)) (k : κ) (v : ν)
    (k' : κ) : jsMapGet (jsMapSet m k v) k' = if k' = k then some v else jsMapGet m k' := by
  unfold jsMapSet
  by_cases hany : (m.any fun p => p.1 = k) = true
  · rw [if_pos hany]
    by_cases hk : k' = k
    · subst hk
      rw [if_pos rfl, jsMapGet_map_replace_self m k' v hany]
    · rw [if_neg hk, jsMapGet_map_replace_ne m k v k' hk]
  · rw [if_neg hany]
    have hfalse : (m.any fun p => p.1 = k) = false := Bool.eq_false_iff.mpr hany
    by_cases hk : k' = k
    · subst hk
      rw [if_pos rfl, jsMapGet_append_self m k' v (jsMapGet_eq_none_of_any_false m k' hfalse)]
    · rw [if_neg hk, jsMapGet_append_ne m k v k' hk]

/-- Unpacking a successful `cacheLookup`. -/
theorem cacheLookup_eq_some {α : Type} {m : Route.CacheMap α} {k : String} {now : ℤ}
    {v : α} (h : Route.cacheLookup m k now = some v) :
    ∃ e, jsMapGet m k = some e ∧ e.value = v ∧ now < e.expiresAt := by
  unfold Route.cacheLookup at h
  cases he : jsMapGet m k with
  | none => rw [he] at h; cases h
  | some e =>
    rw [he] at h
    change (if e.expiresAt > now then some e.value else none) = some v at h
    by_cases hexp : e.expiresAt > now
    · rw [if_pos hexp] at h
      exact ⟨e, rfl, Option.some.inj h, hexp⟩
    · rw [if_neg hexp] at h; cases h

/-- Claim C5: a position-cache entry for the composite `group:limit` key that
is unexpired at the current instant is returned exactly as stored, with the
state untouched and the fetch outcome never consulted; on a miss with a
successful element-set load, the handler computes at the current instant and
stores the new snapshot under that key with expiry `now + 5000` before
returning exactly it. -/
theorem claim5_position_cache_behavior :
    ∀ (gstime : ℤ → ℚ) (propagate : Route.SatRec → ℤ → Option (Route.Vec3 × Route.Vec3))
      (eciToGeodetic : Route.Vec3 → ℚ → Route.Geodetic) (rtdFactor : ℚ → ℚ)
      (jsSqrt : JsNum → JsNum) (st : Route.ServerState)
      (groupParam limitParam : Option String) (now orbitNow computedTime : ℤ)
      (fetchResult : Route.FetchOutcome) (fetchedAt computedAt : String),
      (∀ v, Route.cacheLookup st.positionCache
            (Route.positionCacheKey (Route.resolveGroup groupParam)
              (Route.parseLimit limitParam)) now = some v →
          Route.handleGET gstime propagate eciToGeodetic rtdFactor jsSqrt st groupParam
              limitParam now orbitNow computedTime fetchResult fetchedAt computedAt
            = (st, .ok v)) ∧
      (Route.cacheLookup st.positionCache
          (Route.positionCacheKey (Route.resolveGroup groupParam)
            (Route.parseLimit limitParam)) now = none →
        ∀ orbitSet orbitCache2,
          Route.loadOrbitSet st.orbitCache (Route.resolveGroup groupParam) orbitNow
              fetchResult fetchedAt = .ok (orbitSet, orbitCache2) →
          Route.handleGET gstime propagate eciToGeodetic rtdFactor jsSqrt st groupParam
              limitParam now orbitNow computedTime fetchResult fetchedAt computedAt
            = (⟨orbitCache2,
                jsMapSet st.positionCache
                  (Route.positionCacheKey (Route.resolveGroup groupParam)
                    (Route.parseLimit limitParam))
                  ⟨now + Route.POSITION_CACHE_TTL_MS,
                    Route.mkSnapshotValue computedAt (Route.resolveGroup groupParam) orbitSet
                      (Route.computePositions gstime propagate eciToGeodetic rtdFactor jsSqrt
                        orbitSet.records computedTime (Route.parseLimit limitParam))⟩⟩,
              .ok (Route.mkSnapshotValue computedAt (Route.resolveGroup groupParam) orbitSet
                (Route.computePositions gstime propagate eciToGeodetic rtdFactor jsSqrt
                  orbitSet.records computedTime (Route.parseLimit limitParam))))) := by
  intro gstime propagate eciToGeodetic rtdFactor jsSqrt st groupParam limitParam now
    orbitNow computedTime fetchResult fetchedAt computedAt
  constructor
  · intro v hv
    simp only [Route.handleGET, hv]
  · intro hnone orbitSet orbitCache2 hload
    simp only [Route.handleGET, hnone, hload]

/-- Witness for C5: a concrete unexpired cache entry is served back verbatim
even though the fetch outcome is a timeout. -/
theorem claim5_witness :
    Route.handleGET demoGstime demoPropagate demoGeodetic demoRtd demoSqrt demoState
        none none 5 0 0 .timeout "f" "c" = (demoState, .ok demoSnapshot) :=
  (claim5_position_cache_behavior demoGstime demoPropagate demoGeodetic demoRtd demoSqrt
    demoState none none 5 0 0 .timeout "f" "c").1 demoSnapshot (by decide)

/-- Claim C6: whenever the upstream fetch fails (timeout or non-success HTTP
status) on a request that must fetch, the handler responds with the error
envelope carrying the cause string and status 502; every successful response
is internally consistent (`count` equals the number of satellites present),
and consistency of the cache state is preserved. -/
theorem claim6_failure_envelope_and_consistency :
    ∀ (gstime : ℤ → ℚ) (propagate : Route.SatRec → ℤ → Option (Route.Vec3 × Route.Vec3))
      (eciToGeodetic : Route.Vec3 → ℚ → Route.Geodetic) (rtdFactor : ℚ → ℚ)
      (jsSqrt : JsNum → JsNum) (st : Route.ServerState)
      (groupParam limitParam : Option String) (now orbitNow computedTime : ℤ)
      (fetchResult : Route.FetchOutcome) (fetchedAt computedAt : String),
      Route.StateWellformed st →
      ((Route.cacheLookup st.positionCache
          (Route.positionCacheKey (Route.resolveGroup groupParam)
            (Route.parseLimit limitParam)) now = none →
        Route.cacheLookup st.orbitCache (Route.resolveGroup groupParam) orbitNow = none →
        ∀ msg, Route.fetchFailureMessage fetchResult = some msg →
          (Route.handleGET gstime propagate eciToGeodetic rtdFactor jsSqrt st groupParam
              limitParam now orbitNow computedTime fetchResult fetchedAt computedAt).2
            = .err ("Unable to fetch live satellite positions: " ++ msg) 502) ∧
      (∀ v, (Route.handleGET gstime propagate eciToGeodetic rtdFactor jsSqrt st groupParam
              limitParam now orbitNow computedTime fetchResult fetchedAt computedAt).2
          = .ok v → v.count = v.satellites.length) ∧
      Route.StateWellformed
        (Route.handleGET gstime propagate eciToGeodetic rtdFactor jsSqrt st groupParam
          limitParam now orbitNow computedTime fetchResult fetchedAt computedAt).1) := by
  intro gstime propagate eciToGeodetic rtdFactor jsSqrt st groupParam limitParam now
    orbitNow computedTime fetchResult fetchedAt computedAt hwf
  refine ⟨?_, ?_, ?_⟩
  · intro hpos horbit msg hmsg
    cases fetchResult with
    | timeout =>
      simp only [Route.fetchFailureMessage, Option.some.injEq] at hmsg
      subst hmsg
      simp only [Route.handleGET, hpos, Route.loadOrbitSet, horbit]
    | httpError status =>
      simp only [Route.fetchFailureMessage, Option.some.injEq] at hmsg
      subst hmsg
      simp only [Route.handleGET, hpos, Route.loadOrbitSet, horbit]
    | ok payload => cases hmsg
  · intro v hv
    cases hcl : Route.cacheLookup st.positionCache
        (Route.positionCacheKey (Route.resolveGroup groupParam)
          (Route.parseLimit limitParam)) now with
    | some cachedValue =>
      simp only [Route.handleGET, hcl] at hv
      obtain ⟨e, he, hev, _⟩ := cacheLookup_eq_some hcl
      obtain rfl := Route.ApiResponse.ok.inj hv
      exact hev ▸ hwf _ e he
    | none =>
      cases hload : Route.loadOrbitSet st.orbitCache (Route.resolveGroup groupParam)
          orbitNow fetchResult fetchedAt with
      | error msg =>
        simp only [Route.handleGET, hcl, hload] at hv
        cases hv
      | ok pr =>
        obtain ⟨orbitSet, orbitCache2⟩ := pr
        simp only [Route.handleGET, hcl, hload] at hv
        rw [← Route.ApiResponse.ok.inj hv]
        rfl
  · cases hcl : Route.cacheLookup st.positionCache
        (Route.positionCacheKey (Route.resolveGroup groupParam)
          (Route.parseLimit limitParam)) now with
    | some cachedValue =>
      simp only [Route.handleGET, hcl]
      exact hwf
    | none =>
      cases hload : Route.loadOrbitSet st.orbitCache (Route.resolveGroup groupParam)
          orbitNow fetchResult fetchedAt with
      | error msg =>
        simp only [Route.handleGET, hcl, hload]
        exact hwf
      | ok pr =>
        obtain ⟨orbitSet, orbitCache2⟩ := pr
        simp only [Route.handleGET, hcl, hload]
        intro k e he
        rw [jsMapGet_jsMapSet] at he
        by_cases hk : k = Route.positionCacheKey (Route.resolveGroup groupParam)
            (Route.parseLimit limitParam)
        · rw [if_pos hk] at he
          cases Option.some.inj he
          rfl
        · rw [if_neg hk] at he
          exact hwf k e he

/-- Witness for C6: a timeout on an empty-cache request yields the 502 error
envelope with the cause appended. -/
theorem claim6_witness :
    (Route.handleGET demoGstime demoPropagate demoGeodetic demoRtd demoSqrt emptyState
        none none 0 0 0 .timeout "f" "c").2
      = .err ("Unable to fetch live satellite positions: " ++ "This operation was aborted")
          502 :=
  (claim6_failure_envelope_and_consistency demoGstime demoPropagate demoGeodetic demoRtd
    demoSqrt emptyState none none 0 0 0 .timeout "f" "c"
    (fun k e he => by simp [emptyState, jsMapGet] at he)).1 rfl rfl
    "This operation was aborted" rfl

/-- Claim C7: for normalized longitudes the shortest-arc delta
`((to − from + 540) % 360) − 180` has magnitude at most 180 and lands on the
target modulo 360; concretely, animating from 179 to −179 stays in
(179, 180] ∪ [−180, −179) for every eased progress in (0, 1), passing through
the date line instead of travelling back through 0. -/
theorem claim7_shortest_arc_interpolation :
    (∀ lonFrom lonTo : ℚ, -180 ≤ lonFrom → lonFrom ≤ 180 → -180 ≤ lonTo → lonTo ≤ 180 →
      |Globe.longitudeDelta lonFrom lonTo| ≤ 180 ∧
      ∃ k : ℤ, lonFrom + Globe.longitudeDelta lonFrom lonTo = lonTo + 360 * k) ∧
    (∀ e : ℚ, 0 < e → e < 1 →
      (179 < Globe.normalizeLongitude (179 + Globe.longitudeDelta 179 (-179) * e) ∧
        Globe.normalizeLongitude (179 + Globe.longitudeDelta 179 (-179) * e) ≤ 180) ∨
      (-180 ≤ Globe.normalizeLongitude (179 + Globe.longitudeDelta 179 (-179) * e) ∧
        Globe.normalizeLongitude (179 + Globe.longitudeDelta 179 (-179) * e) < -179)) := by
  constructor
  · intro lonFrom lonTo hf1 hf2 ht1 ht2
    have hnum : (0 : ℚ) ≤ (lonTo - lonFrom + 540) / 360 := by
      apply div_nonneg
      · linarith
      · norm_num
    have htr : Globe.jsTrunc ((lonTo - lonFrom + 540) / 360)
        = ⌊(lonTo - lonFrom + 540) / 360⌋ := by
      unfold Globe.jsTrunc
      rw [if_pos hnum]
    have hfr : (lonTo - lonFrom + 540) - 360 * ⌊(lonTo - lonFrom + 540) / 360⌋
        = 360 * Int.fract ((lonTo - lonFrom + 540) / 360) := by
      rw [Int.fract]
      field_simp
    have h0 : (0 : ℚ) ≤ 360 * Int.fract ((lonTo - lonFrom + 540) / 360) := by
      have := Int.fract_nonneg ((lonTo - lonFrom + 540) / 360)
      linarith
    have h1 : 360 * Int.fract ((lonTo - lonFrom + 540) / 360) < 360 := by
      have := Int.fract_lt_one ((lonTo - lonFrom + 540) / 360)
      linarith
    constructor
    · rw [abs_le]
      unfold Globe.longitudeDelta Globe.jsRem
      rw [htr]
      constructor
      · nlinarith [hfr]
      · nlinarith [hfr]
    · refine ⟨1 - ⌊(lonTo - lonFrom + 540) / 360⌋, ?_⟩
      unfold Globe.longitudeDelta Globe.jsRem
      rw [htr]
      push_cast
      ring
  · have hdelta : Globe.longitudeDelta 179 (-179) = 2 := by
      unfold Globe.longitudeDelta Globe.jsRem Globe.jsTrunc
      norm_num
    intro e he0 he1
    rw [hdelta]
    unfold Globe.normalizeLongitude
    split_ifs with hgt hlt
    · right
      constructor <;> linarith
    · exact absurd hlt (by linarith)
    · left
      constructor <;> linarith

/-- Witness for C7 at the pair (179, −179) and eased progress 1/4. -/
theorem claim7_witness :
    (|Globe.longitudeDelta 179 (-179)| ≤ 180 ∧
      ∃ k : ℤ, (179 : ℚ) + Globe.longitudeDelta 179 (-179) = -179 + 360 * k) ∧
    ((179 < Globe.normalizeLongitude (179 + Globe.longitudeDelta 179 (-179) * (1 / 4)) ∧
        Globe.normalizeLongitude (179 + Globe.longitudeDelta 179 (-179) * (1 / 4)) ≤ 180) ∨
      (-180 ≤ Globe.normalizeLongitude (179 + Globe.longitudeDelta 179 (-179) * (1 / 4)) ∧
        Globe.normalizeLongitude (179 + Globe.longitudeDelta 179 (-179) * (1 / 4)) < -179)) :=
  ⟨claim7_shortest_arc_interpolation.1 179 (-179) (by norm_num) (by norm_num)
      (by norm_num) (by norm_num),
    claim7_shortest_arc_interpolation.2 (1 / 4) (by norm_num) (by norm_num)⟩

/-- `dropWhile` is idempotent. -/
theorem dropWhile_dropWhile (p : Char → Bool) :
    ∀ l : List Char, (l.dropWhile p).dropWhile p = l.dropWhile p := by
  intro l
  induction l with
  | nil => rfl
  | cons a t ih =>
    by_cases h : p a
    · simp only [List.dropWhile_cons, h, if_true]
      exact ih
    · simp [List.dropWhile_cons, h]

/-- `dropTrailing` walks over a head that fails the predicate. -/
theorem dropTrailing_cons_of_neg (p : Char → Bool) (a : Char) (t : List Char)
    (h : p a = false) : dropTrailing p (a :: t) = a :: dropTrailing p t := by
  unfold dropTrailing
  rw [List.reverse_cons, List.dropWhile_append]
  by_cases hd : (t.reverse.dropWhile p).isEmpty
  · rw [if_pos hd]
    rw [List.isEmpty_iff] at hd
    simp [hd, List.dropWhile_cons, h]
  · rw [if_neg hd]
    simp

/-- Dropping trailing characters cannot create a leading run: if a list has no
leading run of `p`, neither has its trailing-trimmed form. -/
theorem dropWhile_dropTrailing (p : Char → Bool) :
    ∀ l : List Char, l.dropWhile p = l →
      (dropTrailing p l).dropWhile p = dropTrailing p l := by
  intro l h
  cases l with
  | nil => rfl
  | cons a t =>
    have ha : p a = false := by
      by_contra hpa
      have hpa' : p a = true := by simpa using hpa
      rw [List.dropWhile_cons, if_pos hpa'] at h
      have hsub : List.Sublist (t.dropWhile p) t := List.dropWhile_sublist _
      have hle : (t.dropWhile p).length ≤ t.length := hsub.length_le
      rw [h] at hle
      simp at hle
    rw [dropTrailing_cons_of_neg p a t ha, List.dropWhile_cons, if_neg (by simp [ha])]

/-- `dropTrailing` is idempotent. -/
theorem dropTrailing_dropTrailing (p : Char → Bool) (l : List Char) :
    dropTrailing p (dropTrailing p l) = dropTrailing p l := by
  unfold dropTrailing
  rw [List.reverse_reverse, dropWhile_dropWhile]

/-- The trim model is idempotent. -/
theorem jsTrim_idem (s : String) : jsTrim (jsTrim s) = jsTrim s := by
  show String.mk
      (dropTrailing jsWhitespace
        ((dropTrailing jsWhitespace (s.data.dropWhile jsWhitespace)).dropWhile jsWhitespace))
    = String.mk (dropTrailing jsWhitespace (s.data.dropWhile jsWhitespace))
  rw [dropWhile_dropTrailing jsWhitespace _ (dropWhile_dropWhile jsWhitespace s.data),
    dropTrailing_dropTrailing]

/-- A string has positive length exactly when it is not the empty string. -/
theorem string_length_pos_iff (s : String) : 0 < s.length ↔ s ≠ "" := by
  constructor
  · intro h he
    subst he
    simp at h
  · intro h
    rcases s with ⟨data⟩
    cases data with
    | nil => exact absurd (by rfl : String.mk [] = "") h
    | cons a t => simp [String.length]

/-- Counterexample to claim C8 as stated: with an absent tag and the name
"DEB" (the token "DEB" at the start of the name), the code's inference,
which tests for the space-prefixed substring " DEB", yields PAYLOAD, while
the claim's token-based inference demands DEBRIS. -/
theorem claim8_counterexample :
    Route.resolvedObjectType .absent "DEB" = "PAYLOAD" ∧
    Spec.claimObjectType .absent "DEB" = "DEBRIS" ∧
    Route.resolvedObjectType .absent "DEB" ≠ Spec.claimObjectType .absent "DEB" :=
  ⟨by decide, by decide, by decide⟩

/-- Claim C8 amended: classification resolution equals the claim's synonym
table and fallback inference, with the name tests amended to the
space-prefixed substrings " DEB" and " R/B" (plus "DEBRIS" and "ROCKET BODY")
instead of token containment. -/
theorem claim8_amended_classification :
    ∀ (rawTag : JSVal) (name : String),
      Route.resolvedObjectType rawTag name = Spec.amendedObjectType rawTag name := by
  have hinfer : ∀ name, Route.inferObjectTypeFromName name = Spec.amendedInferObjectType name :=
    fun _ => rfl
  intro rawTag name
  cases rawTag with
  | str s =>
    by_cases ht : jsTrim s = ""
    · simp [Route.resolvedObjectType, Route.toCleanString, Spec.amendedObjectType, ht,
        Route.normalizeObjectType, hinfer]
    · have hlen : 0 < (jsTrim s).length := (string_length_pos_iff _).mpr ht
      simp only [Route.resolvedObjectType, Route.toCleanString, Spec.amendedObjectType,
        hlen, if_pos, if_neg ht, Route.normalizeObjectType, jsTrim_idem]
      split_ifs <;> simp [hinfer]
  | num x =>
    simp [Route.resolvedObjectType, Route.toCleanString, Spec.amendedObjectType,
      Route.normalizeObjectType, hinfer]
  | absent =>
    simp [Route.resolvedObjectType, Route.toCleanString, Spec.amendedObjectType,
      Route.normalizeObjectType, hinfer]
  | other =>
    simp [Route.resolvedObjectType, Route.toCleanString, Spec.amendedObjectType,
      Route.normalizeObjectType, hinfer]

/-- A lookup is `isSome` exactly when some pair carries the key. -/
theorem jsMapGet_isSome_iff {κ ν : Type} [DecidableEq κ] (m : List (κ × ν)) (k : κ) :
    (jsMapGet m k).isSome ↔ ∃ p ∈ m, p.1 = k := by
  unfold jsMapGet
  cases hf : m.find? (fun p => p.1 = k) with
  | none =>
    refine ⟨fun h => absurd h (by simp), fun h => ?_⟩
    obtain ⟨p, hp, hpk⟩ := h
    exact absurd (by simpa using hpk) (by simpa using List.find?_eq_none.mp hf p hp)
  | some p =>
    exact ⟨fun _ => ⟨p, List.mem_of_find?_eq_some hf, by simpa using List.find?_some hf⟩,
      fun _ => by simp⟩

/-- Looking up a left fold of `jsMapSet` insertions: the last inserted entry
with the key wins, else the initial map answers. -/
theorem jsMapGet_foldl_set {κ ν α : Type} [DecidableEq κ] (g : α → κ) (f : α → ν) :
    ∀ (l : List α) (init : List (κ × ν)) (k : κ),
      jsMapGet (l.foldl (fun m a => jsMapSet m (g a) (f a)) init) k
        = match l.reverse.find? (fun a => g a = k) with
          | some a => some (f a)
          | none => jsMapGet init k := by
  intro l
  induction l with
  | nil => intro init k; rfl
  | cons a t ih =>
    intro init k
    rw [List.foldl_cons, ih, List.reverse_cons, List.find?_append]
    cases hf : t.reverse.find? (fun x => g x = k) with
    | some b => simp [hf]
    | none =>
      simp only [hf, Option.none_or]
      rw [jsMapGet_jsMapSet]
      by_cases hk : g a = k
      · rw [if_pos hk.symm]
        simp [hk]
      · rw [if_neg fun h => hk h.symm]
        simp [hk]

/-- `jsMapSet` preserves key uniqueness. -/
theorem jsMapSet_keys_nodup {κ ν : Type} [DecidableEq κ] (m : List (κ × ν)) (k : κ) (v : ν)
    (h : (m.map Prod.fst).Nodup) : ((jsMapSet m k v).map Prod.fst).Nodup := by
  unfold jsMapSet
  by_cases hany : (m.any fun p => p.1 = k) = true
  · rw [if_pos hany]
    have hkeys : ((m.map fun p => if p.1 = k then (k, v) else p).map Prod.fst)
        = m.map Prod.fst := by
      rw [List.map_map]
      apply List.map_congr_left
      intro p _
      by_cases hp : p.1 = k <;> simp [hp]
    rw [hkeys]
    exact h
  · rw [if_neg hany]
    have hfalse : (m.any fun p => p.1 = k) = false := Bool.eq_false_iff.mpr hany
    have hk : k ∉ m.map Prod.fst := by
      intro hmem
      obtain ⟨p, hp, hpk⟩ := List.mem_map.mp hmem
      have : (m.any fun p => p.1 = k) = true :=
        List.any_eq_true.mpr ⟨p, hp, by simp [hpk]⟩
      rw [hfalse] at this
      cases this
    rw [List.map_append]
    rw [List.nodup_append]
    refine ⟨h, by simp, ?_⟩
    intro x hx
    simp only [List.map_cons, List.map_nil, List.mem_singleton]
    intro hxk
    subst hxk
    exact hk hx

/-- Folding `jsMapSet` insertions preserves key uniqueness. -/
theorem foldl_set_keys_nodup {κ ν α : Type} [DecidableEq κ] (g : α → κ) (f : α → ν) :
    ∀ (l : List α) (init : List (κ × ν)), (init.map Prod.fst).Nodup →
      ((l.foldl (fun m a => jsMapSet m (g a) (f a)) init).map Prod.fst).Nodup := by
  intro l
  induction l with
  | nil => intro init h; exact h
  | cons a t ih => intro init h; exact ih _ (jsMapSet_keys_nodup _ _ _ h)

/-- With unique keys, searching a key from the back finds the same entry as
searching from the front. -/
theorem find?_reverse_of_keys_nodup {κ ν : Type} [DecidableEq κ] :
    ∀ (m : List (κ × ν)) (k : κ), (m.map Prod.fst).Nodup →
      m.reverse.find? (fun p => p.1 = k) = m.find? (fun p => p.1 = k) := by
  intro m
  induction m with
  | nil => intro k _; rfl
  | cons a t ih =>
    intro k h
    rw [List.map_cons, List.nodup_cons] at h
    obtain ⟨hnotin, hnod⟩ := h
    rw [List.reverse_cons, List.find?_append, ih k hnod]
    by_cases hk : a.1 = k
    · have htnone : t.find? (fun p => p.1 = k) = none := by
        apply List.find?_eq_none.mpr
        intro x hx hxk
        apply hnotin
        have hx1 : x.1 = k := by simpa using hxk
        rw [← hk] at hx1
        exact hx1 ▸ List.mem_map.mpr ⟨x, hx, rfl⟩
      rw [htnone]
      simp [List.find?_cons, hk]
    · simp [List.find?_cons, hk]

/-- Projecting the map component out of the paired fold used by the
animation step. -/
theorem foldl_set_pair_fst {κ ν α : Type} [DecidableEq κ] (g : α → κ) (f : α → ν) :
    ∀ (l : List α) (m0 : List (κ × ν)) (s0 : List ν),
      (l.foldl (fun acc a => (jsMapSet acc.1 (g a) (f a), acc.2 ++ [f a])) (m0, s0)).1
        = l.foldl (fun m a => jsMapSet m (g a) (f a)) m0 := by
  intro l
  induction l with
  | nil => intro m0 s0; rfl
  | cons a t ih =>
    intro m0 s0
    rw [List.foldl_cons, List.foldl_cons]
    exact ih _ _

/-- Claim C9: when a snapshot arrives while the rendered map is non-empty,
the new transition's from-map assigns every incoming identifier its currently
rendered position — falling back to its own target when it was not rendered —
the rendered map is untouched until the next frame, the transition's to-map
holds exactly the incoming identifiers, and every animation frame driven by
this transition renders exactly those identifiers (so identifiers absent from
the snapshot are dropped without animation). -/
theorem claim9_transition_reconciliation :
    ∀ (es : Globe.EngineState) (incoming : List Globe.Satellite) (nowMs : ℚ),
      es.renderedMap ≠ [] →
      ∃ tr : Globe.TransitionState,
        (Globe.startTransition es incoming nowMs).transition = some tr ∧
        (Globe.startTransition es incoming nowMs).renderedMap = es.renderedMap ∧
        (∀ id : ℚ, (jsMapGet tr.toMap id).isSome ↔ ∃ s ∈ incoming, s.noradId = id) ∧
        (∀ id target, jsMapGet tr.toMap id = some target →
          jsMapGet tr.fromMap id = some ((jsMapGet es.renderedMap id).getD target)) ∧
        (∀ id, jsMapGet tr.toMap id = none → jsMapGet tr.fromMap id = none) ∧
        (∀ es2 : Globe.EngineState, es2.transition = some tr →
          ∀ frameTimeMs id : ℚ,
            (jsMapGet (Globe.animateStep es2 frameTimeMs).renderedMap id).isSome
              ↔ (jsMapGet tr.toMap id).isSome) := by
  intro es incoming nowMs hne
  have hlen : ¬(es.renderedMap.length = 0) := by
    simpa [List.length_eq_zero] using hne
  have hst : Globe.startTransition es incoming nowMs
      = ⟨es.renderedMap, es.renderedSatellites, some
          ⟨Globe.MOTION_DURATION_MS,
            (incoming.foldl (fun m satellite =>
                jsMapSet m satellite.noradId (Globe.makeSatellitePoint satellite)) []).foldl
              (fun m entry =>
                jsMapSet m entry.1 ((jsMapGet es.renderedMap entry.1).getD entry.2)) [],
            nowMs,
            incoming.foldl (fun m satellite =>
                jsMapSet m satellite.noradId (Globe.makeSatellitePoint satellite)) []⟩⟩ := by
    simp only [Globe.startTransition]
    rw [if_neg hlen]
  have hnodup : ((incoming.foldl (fun m satellite =>
      jsMapSet m satellite.noradId (Globe.makeSatellitePoint satellite)) []).map
        Prod.fst).Nodup :=
    foldl_set_keys_nodup _ _ incoming [] (by simp)
  refine ⟨_, by rw [hst], by rw [hst], ?_, ?_, ?_, ?_⟩
  · intro id
    dsimp only
    rw [jsMapGet_foldl_set]
    cases hfind : incoming.reverse.find? (fun s => s.noradId = id) with
    | none =>
      simp only [hfind]
      refine ⟨fun h => absurd h (by simp [jsMapGet]), fun h => ?_⟩
      obtain ⟨s, hsmem, hsid⟩ := h
      exact absurd (by simpa using hsid)
        (by simpa using List.find?_eq_none.mp hfind s (List.mem_reverse.mpr hsmem))
    | some s =>
      simp only [hfind]
      exact ⟨fun _ => ⟨s, List.mem_reverse.mp (List.mem_of_find?_eq_some hfind),
        by simpa using List.find?_some hfind⟩, fun _ => by simp⟩
  · intro id target htarget
    dsimp only at htarget ⊢
    rw [jsMapGet_foldl_set,
      find?_reverse_of_keys_nodup _ id hnodup]
    unfold jsMapGet at htarget
    cases hfind : (incoming.foldl (fun m satellite =>
        jsMapSet m satellite.noradId (Globe.makeSatellitePoint satellite)) []).find?
          (fun p => p.1 = id) with
    | none => rw [hfind] at htarget; cases htarget
    | some p =>
      rw [hfind] at htarget
      have hp2 : p.2 = target := Option.some.inj htarget
      have hp1 : p.1 = id := by simpa using List.find?_some hfind
      simp only [hfind, hp1, hp2]
  · intro id hnone
    dsimp only at hnone ⊢
    rw [jsMapGet_foldl_set,
      find?_reverse_of_keys_nodup _ id hnodup]
    unfold jsMapGet at hnone
    cases hfind : (incoming.foldl (fun m satellite =>
        jsMapSet m satellite.noradId (Globe.makeSatellitePoint satellite)) []).find?
          (fun p => p.1 = id) with
    | none => simp only [hfind]; rfl
    | some p => rw [hfind] at hnone; cases hnone
  · intro es2 htr2 frameTimeMs id
    simp only [Globe.animateStep, htr2]
    rw [foldl_set_pair_fst, jsMapGet_foldl_set]
    cases hfind : ((incoming.foldl (fun m satellite =>
        jsMapSet m satellite.noradId (Globe.makeSatellitePoint satellite)) []).reverse).find?
          (fun p => p.1 = id) with
    | none =>
      simp only [hfind]
      refine ⟨fun h => absurd h (by simp [jsMapGet]), fun h => ?_⟩
      obtain ⟨p, hpmem, hpk⟩ := jsMapGet_isSome_iff _ _ |>.mp h
      exact absurd (by simpa using hpk)
        (by simpa using List.find?_eq_none.mp hfind p (List.mem_reverse.mpr hpmem))
    | some p =>
      simp only [hfind]
      refine ⟨fun _ => ?_, fun _ => by simp⟩
      exact (jsMapGet_isSome_iff _ _).mpr
        ⟨p, List.mem_reverse.mp (List.mem_of_find?_eq_some hfind),
          by simpa using List.find?_some hfind⟩

/-- Witness for C9 at a concrete rendered map (one satellite) and a concrete
two-satellite incoming snapshot. -/
theorem claim9_witness :
    ∃ tr : Globe.TransitionState,
      (Globe.startTransition demoEngine [demoSat 1 10, demoSat 2 20] 0).transition
        = some tr ∧
      (Globe.startTransition demoEngine [demoSat 1 10, demoSat 2 20] 0).renderedMap
        = demoEngine.renderedMap ∧
      (∀ id : ℚ, (jsMapGet tr.toMap id).isSome ↔
        ∃ s ∈ [demoSat 1 10, demoSat 2 20], s.noradId = id) ∧
      (∀ id target, jsMapGet tr.toMap id = some target →
        jsMapGet tr.fromMap id = some ((jsMapGet demoEngine.renderedMap id).getD target)) ∧
      (∀ id, jsMapGet tr.toMap id = none → jsMapGet tr.fromMap id = none) ∧
      (∀ es2 : Globe.EngineState, es2.transition = some tr →
        ∀ frameTimeMs id : ℚ,
          (jsMapGet (Globe.animateStep es2 frameTimeMs).renderedMap id).isSome
            ↔ (jsMapGet tr.toMap id).isSome) :=
  claim9_transition_reconciliation demoEngine [demoSat 1 10, demoSat 2 20] 0
    (by simp [demoEngine])

/-- A successful `computeOne` copies the record's classification verbatim. -/
theorem computeOne_objectType
    (propagate : Route.SatRec → ℤ → Option (Route.Vec3 × Route.Vec3))
    (eciToGeodetic : Route.Vec3 → ℚ → Route.Geodetic) (rtdFactor : ℚ → ℚ)
    (jsSqrt : JsNum → JsNum) (gmst : ℚ) (nowDate : ℤ)
    (record : Route.CachedOrbitRecord) (p : Route.SatellitePosition)
    (h : Route.computeOne propagate eciToGeodetic rtdFactor jsSqrt gmst nowDate record
      = some p) :
    p.objectType = record.objectType := by
  unfold Route.computeOne at h
  cases hprop : propagate record.satrec nowDate with
  | none => rw [hprop] at h; cases h
  | some pv =>
    obtain ⟨pos, vel⟩ := pv
    rw [hprop] at h
    dsimp only at h
    revert h
    cases hlat : Route.radiansToDegrees rtdFactor (eciToGeodetic pos gmst).latitude with
    | nonfinite => intro h; cases h
    | fin latQ =>
      cases hlon : Route.normalizeLongitude
          (Route.radiansToDegrees rtdFactor (eciToGeodetic pos gmst).longitude) with
      | nonfinite => intro h; cases h
      | fin lonQ =>
        intro h
        obtain rfl := Option.some.inj h
        rfl

/-- Claim C10: every normalized record carries a non-null classification, the
name inference is total onto the three canonical categories, and hence every
position computed from normalized records carries a non-null classification. -/
theorem claim10_object_type_never_null :
    (∀ entry rec, Route.normalizeRecord entry = some rec → rec.objectType.isSome) ∧
    (∀ name, Route.inferObjectTypeFromName name = "DEBRIS" ∨
      Route.inferObjectTypeFromName name = "ROCKET BODY" ∨
      Route.inferObjectTypeFromName name = "PAYLOAD") ∧
    (∀ (gstime : ℤ → ℚ) (propagate : Route.SatRec → ℤ → Option (Route.Vec3 × Route.Vec3))
      (eciToGeodetic : Route.Vec3 → ℚ → Route.Geodetic) (rtdFactor : ℚ → ℚ)
      (jsSqrt : JsNum → JsNum) (payload : List Route.RawRecord) (nowDate : ℤ)
      (limit : Option ℤ),
      ∀ p ∈ Route.computePositions gstime propagate eciToGeodetic rtdFactor jsSqrt
          (payload.filterMap Route.normalizeRecord) nowDate limit,
        p.objectType.isSome) := by
  have hrec : ∀ entry rec, Route.normalizeRecord entry = some rec → rec.objectType.isSome := by
    intro entry rec h
    unfold Route.normalizeRecord at h
    cases hid : Route.toFiniteNumber entry.NORAD_CAT_ID with
    | none => rw [hid] at h; cases h
    | some noradId =>
      rw [hid] at h
      cases hsr : entry.satrecResult with
      | none => rw [hsr] at h; cases h
      | some satrec =>
        rw [hsr] at h
        obtain rfl := Option.some.inj h
        rfl
  refine ⟨hrec, ?_, ?_⟩
  · intro name
    simp only [Route.inferObjectTypeFromName]
    split_ifs
    · exact Or.inl rfl
    · exact Or.inr (Or.inl rfl)
    · exact Or.inr (Or.inr rfl)
  · intro gstime propagate eciToGeodetic rtdFactor jsSqrt payload nowDate limit p hp
    unfold Route.computePositions at hp
    rw [filterMap_range_getElem] at hp
    obtain ⟨r, hrmem, hreq⟩ := List.mem_filterMap.mp hp
    obtain ⟨entry, _, hnorm⟩ := List.mem_filterMap.mp (List.take_subset _ _ hrmem)
    rw [computeOne_objectType propagate eciToGeodetic rtdFactor jsSqrt _ nowDate r p hreq]
    exact hrec entry r hnorm

/-- Witness for C10 at a concrete valid raw record. -/
theorem claim10_witness :
    Route.normalizeRecord demoGoodRaw = some demoRec ∧ demoRec.objectType.isSome :=
  ⟨rfl, claim10_object_type_never_null.1 demoGoodRaw demoRec rfl⟩

